import Mathlib

/-!
Formal model of `plot.py`: a gamma-curve plotter built on a turtle canvas,
with a zoom rectangle, a margin/label layout pass over grid lines, a bounded
command channel between producer threads and the render loop, and a table
plotter.  Python floats are modeled as exact rationals.  The turtle/tkinter
canvas and the font-metrics capability are modeled by an explicit
environment (`ScreenEnv`): `measure` gives the pixel width of one line of
text and `linespace` the pixel line height; drawing calls are reified into a
`DrawOp` list instead of mutating a canvas.
-/

set_option maxHeartbeats 1000000

namespace Plot

/-- A 4-tuple of rationals indexed like the Python lists
`plot_area`, `zoom_area` and `margin`: entries 0,1,2,3 are
x-low, y-low, x-high, y-high. -/
structure Quad where
  x_lo : ℚ
  y_lo : ℚ
  x_hi : ℚ
  y_hi : ℚ
deriving DecidableEq, Repr, Inhabited

/-- Entry `q[0 + h]` of a Python 4-list, `h` being the axis (False = x). -/
def Quad.lo (q : Quad) (h : Bool) : ℚ := if h then q.y_lo else q.x_lo

/-- Entry `q[2 + h]` of a Python 4-list, `h` being the axis (False = x). -/
def Quad.hi (q : Quad) (h : Bool) : ℚ := if h then q.y_hi else q.x_hi

/-- `self.plot_area = (0, 0, 1023, 1023)`, fixed in `__init__` and never
mutated. -/
def plot_area : Quad := ⟨0, 0, 1023, 1023⟩

/-- `self.min_size = (2, 8)`, fixed in `__init__` and never mutated. -/
def min_size : ℚ × ℚ := (2, 8)

/-- One grid-line dict as consumed by `draw_grid` / `draw_line`; absent keys
are represented by the Python defaults (`line.get('horizontal', 0)`,
`line.get('priority', 0)`, and the keyword defaults of `draw_line`). -/
structure GridLine where
  pos : ℚ
  horizontal : Bool := false
  label : Option String := none
  priority : ℤ := 0
  color : String := "gray90"
  label_color : String := "gray35"
deriving DecidableEq, Repr

instance : Inhabited GridLine := ⟨{ pos := 0 }⟩

/-- External canvas and font-metrics capabilities: the screen scales of the
turtle window and the font measurements used by `label_size` / `label_pos`
(the font itself is the fixed `self.font`). -/
structure ScreenEnv where
  xscale : ℚ
  yscale : ℚ
  linespace : ℚ
  measure : String → ℚ

/-- Split a character list at newline characters; models Python
`str.split('\n')` (always returns `count('\n') + 1` parts). -/
def splitNl : List Char → List (List Char)
  | [] => [[]]
  | c :: rest =>
    let r := splitNl rest
    if c = '\n' then [] :: r
    else
      match r with
      | [] => [[c]]
      | x :: xs => (c :: x) :: xs

/-- The lines of a label, as in `label.split('\n')`. -/
def labelLines (s : String) : List String := (splitNl s.data).map String.mk

/-- `Plot.label_size`: label width and height in world units — the maximal
measured line width divided by `xscale`, and the line height times the
number of lines divided by `yscale`. -/
def label_size (env : ScreenEnv) (label : String) : ℚ × ℚ :=
  ((labelLines label).foldl (fun w line => max w (env.measure line)) 0 / env.xscale,
   env.linespace * (labelLines label).length / env.yscale)

/-- `Plot.label_pos`: label start position — top-right of the line for a
vertical line, top-center shifted left of the axis for a horizontal one. -/
def label_pos (env : ScreenEnv) (pos : ℚ) (label : String) (horizontal : Bool) : ℚ × ℚ :=
  let height : ℚ := ((labelLines label).length : ℚ) * env.linespace / env.yscale
  (if horizontal then -8 / env.xscale else pos,
   if horizontal then pos - 0.5 * height else -height - 6 / env.yscale)

/-- A reified canvas operation: written text, a pen-down line segment, or a
plotted polyline. -/
inductive DrawOp where
  | text (s : String) (p : ℚ × ℚ) (align : String) (color : String)
  | seg (a : ℚ × ℚ) (b : ℚ × ℚ) (color : String)
  | poly (pts : List (ℚ × ℚ)) (color : String)
deriving DecidableEq, Repr

/-- Python truthiness of an optional label string (`if not label: ...`):
both a missing label and an empty string count as no label. -/
def hasLabel : Option String → Bool
  | none => false
  | some s => s != ""

/-- Start point of the main gridline segment drawn by `draw_line`
(`1/xscale` resp. `1/yscale` off the axis). -/
def mainStart (env : ScreenEnv) (line : GridLine) : ℚ × ℚ :=
  (if line.horizontal then 1 / env.xscale else line.pos,
   if line.horizontal then line.pos else 1 / env.yscale)

/-- End point of the main gridline segment drawn by `draw_line`
(the high plot-area edge on the line's axis). -/
def mainEnd (line : GridLine) : ℚ × ℚ :=
  (if line.horizontal then plot_area.x_hi else line.pos,
   if line.horizontal then line.pos else plot_area.y_hi)

/-- `Plot.draw_line`: skip a line outside the zoom rectangle on its own
axis; otherwise optionally write the label and draw its tick (pen goes down
while still in the label color), then draw the main segment in the line
color. -/
def draw_line (env : ScreenEnv) (zoomq : Quad) (line : GridLine) : List DrawOp :=
  if line.pos < zoomq.lo line.horizontal ∨ line.pos > zoomq.hi line.horizontal then []
  else
    let labelPart : List DrawOp :=
      match line.label with
      | some lbl =>
        if lbl = "" then []
        else
          [DrawOp.text lbl (label_pos env line.pos lbl line.horizontal)
              (if line.horizontal then "right" else "center") line.label_color,
           DrawOp.seg
              (if line.horizontal then -4 / env.xscale else line.pos,
               if line.horizontal then line.pos else -4 / env.yscale)
              (mainStart env line) line.label_color]
      | none => []
    labelPart ++ [DrawOp.seg (mainStart env line) (mainEnd line) line.color]

/-- Insert a line into an already sorted list, after all entries with a
smaller or equal `pos` (keeps the sort stable). -/
def insertSorted (x : GridLine) : List GridLine → List GridLine
  | [] => [x]
  | y :: ys => if y.pos ≤ x.pos then y :: insertSorted x ys else x :: y :: ys

/-- Stable sort by `pos`, modeling `lines.sort(key=lambda x: x['pos'])`
(Python's sort is stable; equal keys keep their input order). -/
def sortByPos (ls : List GridLine) : List GridLine :=
  ls.foldl (fun acc x => insertSorted x acc) []

/-- The margin update for one label inside the loop of `draw_grid`'s first
pass: for each axis `i`, lower the low margin to
`(p - margin_pad[i]) * margin_scale[i]` and raise the high margin to
`(p + size[i] - plot_area[i+2] + margin_pad[i]) * margin_scale[i]`. -/
def marginAccum (pads : ℚ × ℚ) (msc : ℚ) (lp : ℚ × ℚ) (size : ℚ × ℚ)
    (m : Quad) : Quad :=
  let m0 := { m with
    x_lo := min m.x_lo ((lp.1 - pads.1) * msc),
    x_hi := max m.x_hi ((lp.1 + size.1 - plot_area.x_hi + pads.1) * msc) }
  { m0 with
    y_lo := min m0.y_lo ((lp.2 - pads.2) * msc),
    y_hi := max m0.y_hi ((lp.2 + size.2 - plot_area.y_hi + pads.2) * msc) }

/-- First pass of `draw_grid` over the sorted lines: drop the label of any
labeled line outside the zoom rectangle on its axis, and accumulate the
margin needed by the remaining labels (label anchor shifted left by the full
width for horizontal lines, by half the width for vertical ones). -/
def marginPass (env : ScreenEnv) (zoomq : Quad) (pads : ℚ × ℚ) (msc : ℚ) :
    Quad → List GridLine → Quad × List GridLine
  | m, [] => (m, [])
  | m, line :: rest =>
    match line.label with
    | none =>
      let r := marginPass env zoomq pads msc m rest
      (r.1, line :: r.2)
    | some lbl =>
      if lbl = "" then
        let r := marginPass env zoomq pads msc m rest
        (r.1, line :: r.2)
      else if line.pos < zoomq.lo line.horizontal ∨ line.pos > zoomq.hi line.horizontal then
        let r := marginPass env zoomq pads msc m rest
        (r.1, { line with label := none } :: r.2)
      else
        let size := label_size env lbl
        let lp0 := label_pos env line.pos lbl line.horizontal
        let lp := (lp0.1 - size.1 / (if line.horizontal then 1 else 2), lp0.2)
        let r := marginPass env zoomq pads msc (marginAccum pads msc lp size m) rest
        (r.1, line :: r.2)

/-- The overlap padding `size[h] * 0.6` of a label in `draw_grid`'s second
pass. -/
def labelPad (env : ScreenEnv) (line : GridLine) (lbl : String) : ℚ :=
  (if line.horizontal then (label_size env lbl).2 else (label_size env lbl).1) * 0.6

/-- One walk of `draw_grid`'s second (overlap) pass, mutating the line list
in place: `lastV`/`lastH` hold, per axis, the index of the last line whose
label was kept and its padded end `pos + pad`.  When the next label's padded
start overlaps it, the line with the lower priority loses its label text
(ties: the current, later one loses). -/
def overlapGo (env : ScreenEnv) :
    Nat → Option (Nat × ℚ) → Option (Nat × ℚ) → Nat → List GridLine → List GridLine
  | _, _, _, 0, ls => ls
  | i, lastV, lastH, fuel + 1, ls =>
    match ls.get? i with
    | none => ls
    | some line =>
      match line.label with
      | none => overlapGo env (i + 1) lastV lastH fuel ls
      | some lbl =>
        if lbl = "" then overlapGo env (i + 1) lastV lastH fuel ls
        else
          let h := line.horizontal
          let pad := labelPad env line lbl
          match (if h then lastH else lastV) with
          | some (j, lastpos) =>
            if line.pos - pad < lastpos then
              if line.priority ≤ (ls.getD j default).priority then
                overlapGo env (i + 1) lastV lastH fuel
                  (ls.set i { line with label := none })
              else
                let ls' := ls.set j { ls.getD j default with label := none }
                if h then overlapGo env (i + 1) lastV (some (i, line.pos + pad)) fuel ls'
                else overlapGo env (i + 1) (some (i, line.pos + pad)) lastH fuel ls'
            else
              if h then overlapGo env (i + 1) lastV (some (i, line.pos + pad)) fuel ls
              else overlapGo env (i + 1) (some (i, line.pos + pad)) lastH fuel ls
          | none =>
            if h then overlapGo env (i + 1) lastV (some (i, line.pos + pad)) fuel ls
            else overlapGo env (i + 1) (some (i, line.pos + pad)) lastH fuel ls

/-- Second pass of `draw_grid`: resolve overlapping labels along the sorted
line list (`last = [None, None]`, `last_pos = [-inf, -inf]`; the `None`
start is modeled by the `Option` being `none`). -/
def overlapPass (env : ScreenEnv) (ls : List GridLine) : List GridLine :=
  overlapGo env 0 none none ls.length ls

/-- One plotted argument of `plot_table`.  Python allows arbitrary nesting;
the program only ever distinguishes a bare number, a curve (list of
samples), and a grouped argument (list of curves), which is what the model
covers. -/
inductive Arg where
  | num (q : ℚ)
  | curve (ys : List ℚ)
  | group (cs : List (List ℚ))
deriving DecidableEq, Repr, Inhabited

/-- The renderer-owned state of a `Plot` instance (`self.margin`,
`self.zoom_area`, `self.scale`, `self.closed`, `self.tables`,
`self.lines`); `plot_area` and `min_size` are the constants above. -/
structure PlotState where
  margin : Quad
  zoom_area : Quad
  scale : ℚ
  closed : Bool
  tables : List (List Arg × List String × ℚ)
  lines : List GridLine
deriving DecidableEq, Repr

/-- A fresh instance as built by `Plot.__init__` (which leaves `self.lines`
unset; it is first assigned by `do_clear`, modeled here as empty). -/
def freshState : PlotState :=
  { margin := ⟨0, 0, 0, 0⟩, zoom_area := plot_area, scale := 1,
    closed := false, tables := [], lines := [] }

/-- The four border segments drawn at the start of `draw_grid`. -/
def borderDraws : List DrawOp :=
  [DrawOp.seg (0, 0) (1023, 0) "gray75",
   DrawOp.seg (1023, 0) (1023, 1023) "gray75",
   DrawOp.seg (1023, 1023) (0, 1023) "gray75",
   DrawOp.seg (0, 1023) (0, 0) "gray75"]

/-- `Plot.draw_grid`: draw the border, sort a copy of `self.lines` by
`pos`, run the margin pass (starting from the base padding margin
`[-pad*mscale, ..., +pad*mscale]`), store the recomputed margin, run the
overlap pass, and draw every line.  `setworldcoordinates` only touches the
window, not the modeled state. -/
def draw_grid (env : ScreenEnv) (s : PlotState) : PlotState × List DrawOp :=
  let sorted := sortByPos s.lines
  let pads : ℚ × ℚ := (4 / env.xscale, 4 / env.yscale)
  let msc : ℚ := 1 / s.scale
  let m0 : Quad := ⟨-(pads.1 * msc), -(pads.2 * msc), pads.1 * msc, pads.2 * msc⟩
  let r := marginPass env s.zoom_area pads msc m0 sorted
  let lines2 := overlapPass env r.2
  ({ s with margin := r.1 },
   borderDraws ++ lines2.flatMap (draw_line env s.zoom_area))

/-- The clamped new axis size computed by `do_zoom`: `size / level`, raised
to `min_size[i]` and then capped at the plot-area size. -/
def newSize (l h minsz maxsz level : ℚ) : ℚ :=
  let ns0 := (h - l) / level
  let ns1 := if ns0 < minsz then minsz else ns0
  if ns1 > maxsz then maxsz else ns1

/-- One axis of `do_zoom`: anchor bias `d = direction/2 + 0.5`, new low
`max(min_l, l + (size - new_size) * d)`, and if the new high would exceed
the plot area shift the interval back down to end at `max_h`. -/
def zoomAxis (l h minl maxh minsz level d0 : ℚ) : ℚ × ℚ :=
  let d := d0 / 2 + 0.5
  let ns := newSize l h minsz (maxh - minl) level
  let nl0 := max minl (l + ((h - l) - ns) * d)
  let nh0 := nl0 + ns
  if nh0 > maxh then (maxh - ns, maxh) else (nl0, nh0)

/-- `Plot.do_zoom`: `level = None` resets the zoom area to the full plot
area with scale 1; otherwise both axes are zoomed independently and the
stored scale is the one from the last (y) axis.  The trailing
`setworldcoordinates` only touches the window. -/
def do_zoom (s : PlotState) : Option ℚ → ℚ × ℚ → PlotState
  | none, _ => { s with scale := 1, zoom_area := plot_area }
  | some level, dir =>
    let x := zoomAxis s.zoom_area.x_lo s.zoom_area.x_hi
      plot_area.x_lo plot_area.x_hi min_size.1 level dir.1
    let y := zoomAxis s.zoom_area.y_lo s.zoom_area.y_hi
      plot_area.y_lo plot_area.y_hi min_size.2 level dir.2
    { s with
      zoom_area := ⟨x.1, y.1, x.2, y.2⟩,
      scale := newSize s.zoom_area.y_lo s.zoom_area.y_hi min_size.2
        (plot_area.y_hi - plot_area.y_lo) level / (plot_area.y_hi - plot_area.y_lo) }

/-- `Plot.do_clear`: clear the canvas, reset the stored tables, install the
new line list and redraw the grid. -/
def do_clear (env : ScreenEnv) (s : PlotState) (lines : List GridLine) :
    PlotState × List DrawOp :=
  draw_grid env { s with tables := [], lines := lines }

/-- The points of one curve as plotted by `plot_table`
(`(x * scale_x, y)` for sample index `x`); a non-number sample or a
non-list curve raises a `TypeError`. -/
def samplePoints (sx : ℚ) : Nat → List ℚ → List (ℚ × ℚ)
  | _, [] => []
  | x, y :: rest => ((x : ℚ) * sx, y) :: samplePoints sx (x + 1) rest

/-- Plot one argument as a polyline: only a curve (list of numbers) can be
drawn; iterating a bare number or positioning the pen at a list raises a
`TypeError`. -/
def curvePoints (sx : ℚ) : Arg → Except Unit (List (ℚ × ℚ))
  | Arg.curve ys => .ok (samplePoints sx 0 ys)
  | _ => .error ()

/-- The pen color used for curve `i` of `n` curves: `colors[i]` when the
counts match, else `colors[0]` when a single color is given, else the
initial black. -/
def colorOf (n : Nat) (colors : List String) (i : Nat) : String :=
  if n = colors.length then colors.getD i "black"
  else if colors.length = 1 then colors.getD 0 "black"
  else "black"

/-- The drawing loop of `plot_table` over the (possibly collapsed)
argument list: one colored polyline per curve. -/
def drawCurves (sx : ℚ) (co : Nat → String) :
    Nat → List Arg → Except Unit (List (String × List (ℚ × ℚ)))
  | _, [] => .ok []
  | i, v :: rest =>
    match curvePoints sx v with
    | .error e => .error e
    | .ok pts =>
      match drawCurves sx co (i + 1) rest with
      | .error e => .error e
      | .ok r => .ok ((co i, pts) :: r)

/-- The grouped-argument unpack at the top of `plot_table`:
`if len(gamma) == 1 and len(gamma[0]) == 3: gamma = gamma[0]`.  The length
test looks only at lengths, and `len()` of a bare number raises a
`TypeError`. -/
def unpackStep : List Arg → Except Unit (List Arg)
  | [Arg.num _] => .error ()
  | [Arg.curve ys] => .ok (if ys.length = 3 then ys.map Arg.num else [Arg.curve ys])
  | [Arg.group cs] => .ok (if cs.length = 3 then cs.map Arg.curve else [Arg.group cs])
  | g => .ok g

/-- The identical-curves collapse of `plot_table`:
`if all(x == gamma[0] for x in gamma): gamma = gamma[:1]`. -/
def collapseStep : List Arg → List Arg
  | [] => []
  | x :: rest => if (x :: rest).all (· = x) then [x] else x :: rest

/-- `Plot.plot_table`: unpack a grouped argument, collapse identical
curves, then draw each curve as a colored polyline (draw_speed only paces
the screen refresh and is not part of the visible result). -/
def plot_table (gamma : List Arg) (colors : List String) (sx : ℚ) :
    Except Unit (List (String × List (ℚ × ℚ))) :=
  match unpackStep gamma with
  | .error e => .error e
  | .ok g1 =>
    let g2 := collapseStep g1
    drawCurves sx (colorOf g2.length colors) 0 g2

/-- Baseline for the refinement claim, following the spec's words: draw
every curve, without the grouped-argument unpack and without the
identical-curves collapse, with the same color rule. -/
def plotTableNoCollapse (gamma : List Arg) (colors : List String) (sx : ℚ) :
    Except Unit (List (String × List (ℚ × ℚ))) :=
  drawCurves sx (colorOf gamma.length colors) 0 gamma

/-- The final color a polyline geometry is left in after a sequence of
draws (later draws paint over earlier ones). -/
def lastColorOf (ds : List (String × List (ℚ × ℚ))) (p : List (ℚ × ℚ)) :
    Option String :=
  ((ds.filter (fun e => e.2 = p)).map (fun e => e.1)).getLast?

/-- A queued command.  The source enqueues zero-argument closures and
compares against the bound method `self.do_close` by identity; the closures
actually enqueued by `clear`/`zoom`/`plot`/`close` are exactly these four
shapes. -/
inductive Cmd where
  | clear (lines : List GridLine)
  | zoom (level : Option ℚ) (dir : ℚ × ℚ)
  | plot (gamma : List Arg) (colors : List String) (scale_x : ℚ)
  | close
deriving DecidableEq, Repr

/-- Outcome of one iteration of the retry loop in `Plot.enqueue`: the
`PlotClosed` exception, a successful `queue.put`, or a `queue.Full` timeout
(after which the loop just retries). -/
inductive EnqRes where
  | closedErr
  | ok (buf : List Cmd)
  | full
deriving DecidableEq, Repr

/-- One attempt of `Plot.enqueue` on a queue of capacity 1: raise
`PlotClosed` when the `self.closed` flag is set (checked before the put),
otherwise block/fail on a full queue, otherwise deliver. -/
def enqueue (closed : Bool) (buf : List Cmd) (c : Cmd) : EnqRes :=
  if closed then .closedErr
  else if 1 ≤ buf.length then .full
  else .ok (buf ++ [c])

/-- `Plot.close`: enqueue the close command, swallowing `PlotClosed`.  The
result is the queue contents when the call returns; it is `none` when the
enqueue attempt times out on a full queue (the retry loop would keep
spinning, so `close` does not return, and in particular it never sets
`self.closed` itself). -/
def close (closed : Bool) (buf : List Cmd) : Option (List Cmd) :=
  match enqueue closed buf Cmd.close with
  | .closedErr => some buf
  | .ok buf' => some buf'
  | .full => none

/-- Run one queued command against the renderer state, as dispatched by the
render loop: returns the new state, the reified draws, and whether the
command raised (a `TypeError` out of `plot_table`). -/
def execCmd (env : ScreenEnv) (s : PlotState) : Cmd → PlotState × List DrawOp × Bool
  | Cmd.clear lines =>
    let r := do_clear env s lines
    (r.1, r.2, false)
  | Cmd.zoom level dir => (do_zoom s level dir, [], false)
  | Cmd.plot gamma colors sx =>
    let s' := { s with tables := s.tables ++ [(gamma, colors, sx)] }
    match plot_table gamma colors sx with
    | .ok ds => (s', ds.map (fun e => DrawOp.poly e.2 e.1), false)
    | .error _ => (s', [], true)
  | Cmd.close => (s, [], false)

/-- The command-draining loop run by `check_queue` once the window is open,
with the external timer and window-resize polling abstracted away: execute
queued commands in order until the close command (which tears the window
down) or until no further command arrives; a command that raises stops the
loop. -/
def processCmds (env : ScreenEnv) : PlotState → List Cmd → PlotState × List DrawOp × Bool
  | s, [] => (s, [], false)
  | s, c :: rest =>
    if c = Cmd.close then (s, [], false)
    else
      let r := execCmd env s c
      if r.2.2 then r
      else
        let r' := processCmds env r.1 rest
        (r'.1, r.2.1 ++ r'.2.1, r'.2.2)

/-- What a call to `Plot.run` did: the final renderer state (the `finally`
block always sets `self.closed`), whether a window was ever opened
(`opened`, which also decides whether `turtle.bye` runs at the end), the
reified draws, and whether a command raised. -/
structure RunOutcome where
  finalState : PlotState
  opened : Bool
  draws : List DrawOp
  errored : Bool
deriving DecidableEq, Repr

/-- `Plot.run` on the sequence of commands the producers deliver: raise
`PlotClosed` if already closed; take the first command; if it is the close
command, finish directly (never opening a window, drawing nothing);
otherwise open the window, do the initial `do_zoom()` and `do_clear()`,
execute the first command and then drain the rest until close. -/
def run (env : ScreenEnv) (s : PlotState) (first : Cmd) (rest : List Cmd) :
    Except Unit RunOutcome :=
  if s.closed then .error ()
  else if first = Cmd.close then
    .ok { finalState := { s with closed := true }, opened := false,
          draws := [], errored := false }
  else
    let s1 := do_zoom s none (0, 0)
    let r2 := do_clear env s1 []
    let r3 := execCmd env r2.1 first
    let r4 := processCmds env r3.1 rest
    .ok { finalState := { r4.1 with closed := true }, opened := true,
          draws := r2.2 ++ r3.2.1 ++ r4.2.1, errored := r3.2.2 || r4.2.2 }

/-- Clamp `x` into the interval `[lo, hi]`. -/
def clamp (x lo hi : ℚ) : ℚ := max lo (min x hi)

/-- A concrete screen environment for witnesses: unit world scales and a
font whose lines measure 10 pixels wide and 10 pixels high. -/
def env0 : ScreenEnv := ⟨1, 1, 10, fun _ => 10⟩

/-- The demo's grid line at `pos = 127` with a label. -/
def lineA : GridLine := { pos := 127, label := some "127" }

/-- The demo's grid line at `pos = 128` with a label. -/
def lineB : GridLine := { pos := 128, label := some "128" }

/-- A labeled default-priority line, as in the demo's priority scenario. -/
def lineP0 : GridLine := { pos := 128, label := some "G", color := "green" }

/-- A labeled priority-1 line overlapping `lineP0`'s label. -/
def lineP1 : GridLine := { pos := 136, label := some "B", priority := 1, color := "blue" }

/-- A labeled line far outside the plot area, hence outside every zoom
rectangle. -/
def lineOut : GridLine := { pos := 2000, label := some "X" }

/-- A two-sample curve used in the plot-table witnesses. -/
def curveC : List ℚ := [0, 512]

/-- Three identical curves passed as three separate arguments. -/
def gamma3 : List Arg := [Arg.curve curveC, Arg.curve curveC, Arg.curve curveC]

/-- The default color list of `plot_table`. -/
def colorsRGB : List String := ["red", "green", "blue"]

/-- The polyline produced by plotting `curveC` with `scale_x = 1`. -/
def ptsC : List (ℚ × ℚ) := [(0, 0), (1, 512)]

/-- Claim C8: for every prior state of the zoom rectangle and scale,
`do_zoom` with `level = None` sets the zoom rectangle to the full plot area
and the scale to 1. -/
theorem do_zoom_none_resets (s : PlotState) (dir : ℚ × ℚ) :
    (do_zoom s none dir).zoom_area = plot_area ∧ (do_zoom s none dir).scale = 1 :=
  ⟨rfl, rfl⟩

/-- Claim C2, counterexample to the claim as stated: on a fresh open
instance, `close()` merely enqueues the close command without setting the
closed flag, so the next `enqueue` attempt times out on the full
single-slot queue (and retries) instead of raising `PlotClosed`. -/
theorem enqueue_after_close_cex :
    close false [] = some [Cmd.close]
    ∧ enqueue false [Cmd.close] (Cmd.clear []) = EnqRes.full
    ∧ EnqRes.full ≠ EnqRes.closedErr :=
  ⟨rfl, rfl, by decide⟩

/-- Claim C2, amended: an `enqueue` attempt raises `PlotClosed` exactly
when the `self.closed` flag is set — and that flag is set by the `finally`
block of `run`, not by `close()` itself. -/
theorem enqueue_closedErr_iff_flag (closed : Bool) (buf : List Cmd) (c : Cmd) :
    enqueue closed buf c = EnqRes.closedErr ↔ closed = true := by
  cases closed
  · simp only [enqueue, Bool.false_eq_true, if_false, iff_false]
    split <;> simp
  · simp [enqueue]

/-- Claim C9: if the first command `run` dequeues on a not-yet-closed
instance is the close command, the loop finishes in the closed state
without opening a window, drawing nothing, zooming nothing, and never
calling the window teardown (`opened = false`). -/
theorem run_close_first (env : ScreenEnv) (s : PlotState) (rest : List Cmd)
    (h : s.closed = false) :
    run env s Cmd.close rest =
      .ok { finalState := { s with closed := true }, opened := false,
            draws := [], errored := false } := by
  simp [run, h]

/-- Witness for C9 at a fresh instance with no further commands. -/
theorem run_close_first_witness :
    freshState.closed = false ∧
    run env0 freshState Cmd.close [] =
      .ok { finalState := { freshState with closed := true }, opened := false,
            draws := [], errored := false } :=
  ⟨rfl, run_close_first env0 freshState [] rfl⟩

/-- Claim C10: a single length-3 curve argument triggers the
grouped-argument unpack (the test looks only at lengths), its three samples
become three separate arguments, and `plot_table` then fails with a
`TypeError` when it tries to iterate a bare number — so a genuine 3-sample
curve is never drawn as one polyline. -/
theorem plot_table_unpacks_three_sample_curve (a b c : ℚ) (colors : List String)
    (sx : ℚ) :
    unpackStep [Arg.curve [a, b, c]] = .ok [Arg.num a, Arg.num b, Arg.num c]
    ∧ plot_table [Arg.curve [a, b, c]] colors sx = .error () := by
  have hu : unpackStep [Arg.curve [a, b, c]] = .ok [Arg.num a, Arg.num b, Arg.num c] := rfl
  refine ⟨hu, ?_⟩
  rw [plot_table, hu]
  cases hall : ([Arg.num a, Arg.num b, Arg.num c].all (· = Arg.num a)) <;>
    simp [collapseStep, hall, drawCurves, curvePoints]

/-- The clamped size computed by `do_zoom` is the standard clamp of
`size / level` into `[minsz, maxsz]` whenever `minsz ≤ maxsz`. -/
theorem newSize_eq_clamp (l h minsz maxsz level : ℚ) (hmm : minsz ≤ maxsz) :
    newSize l h minsz maxsz level = clamp ((h - l) / level) minsz maxsz := by
  simp only [newSize, clamp]
  rcases lt_or_le ((h - l) / level) minsz with h1 | h1
  · rw [if_pos h1, if_neg (not_lt.mpr hmm),
      max_eq_left (le_trans (min_le_left _ _) (le_of_lt h1))]
  · rw [if_neg (not_lt.mpr h1)]
    rcases le_or_lt ((h - l) / level) maxsz with h2 | h2
    · rw [if_neg (not_lt.mpr h2), min_eq_left h2, max_eq_right h1]
    · rw [if_pos h2, min_eq_right (le_of_lt h2), max_eq_right hmm]

/-- One-axis correctness of `do_zoom`: for a zoom interval inside the plot
axis with at least the minimal size, the zoomed interval has exactly the
clamped size and stays inside the plot axis. -/
theorem zoomAxis_spec (l h minl maxh minsz level d0 : ℚ)
    (_hms : 0 < minsz) (hmm : minsz ≤ maxh - minl) (_hlevel : 1 ≤ level)
    (_hl : minl ≤ l) (_hh : h ≤ maxh) (_hsz : minsz ≤ h - l) :
    (zoomAxis l h minl maxh minsz level d0).2 - (zoomAxis l h minl maxh minsz level d0).1
      = clamp ((h - l) / level) minsz (maxh - minl)
    ∧ minl ≤ (zoomAxis l h minl maxh minsz level d0).1
    ∧ (zoomAxis l h minl maxh minsz level d0).2 ≤ maxh := by
  have hclamp := newSize_eq_clamp l h minsz (maxh - minl) level hmm
  have hns1 : newSize l h minsz (maxh - minl) level ≤ maxh - minl := by
    rw [hclamp]; exact max_le hmm (min_le_right _ _)
  simp only [zoomAxis]
  rcases lt_or_le maxh
      (max minl (l + (h - l - newSize l h minsz (maxh - minl) level) * (d0 / 2 + 0.5))
        + newSize l h minsz (maxh - minl) level) with hc | hc
  · rw [if_pos hc]
    dsimp only
    refine ⟨by rw [← hclamp]; ring, by linarith, le_refl _⟩
  · rw [if_neg (not_lt.mpr hc)]
    dsimp only
    exact ⟨by rw [← hclamp]; ring, le_max_left _ _, hc⟩

/-- Claim C3: for `level ≥ 1`, a direction with both components in
`[-1, 1]`, and a zoom rectangle inside the plot area with at least the
minimal size on each axis, `do_zoom` produces a rectangle whose size on
each axis is `clamp(size/level, min_size, plot_area_size)` and which is
fully contained in the plot area. -/
theorem do_zoom_clamp_contained (s : PlotState) (level : ℚ) (dir : ℚ × ℚ)
    (hlevel : 1 ≤ level)
    (_hd1 : -1 ≤ dir.1) (_hd2 : dir.1 ≤ 1) (_hd3 : -1 ≤ dir.2) (_hd4 : dir.2 ≤ 1)
    (hx1 : plot_area.x_lo ≤ s.zoom_area.x_lo) (hx2 : s.zoom_area.x_hi ≤ plot_area.x_hi)
    (hy1 : plot_area.y_lo ≤ s.zoom_area.y_lo) (hy2 : s.zoom_area.y_hi ≤ plot_area.y_hi)
    (hsx : min_size.1 ≤ s.zoom_area.x_hi - s.zoom_area.x_lo)
    (hsy : min_size.2 ≤ s.zoom_area.y_hi - s.zoom_area.y_lo) :
    ((do_zoom s (some level) dir).zoom_area.x_hi - (do_zoom s (some level) dir).zoom_area.x_lo
        = clamp ((s.zoom_area.x_hi - s.zoom_area.x_lo) / level) min_size.1
            (plot_area.x_hi - plot_area.x_lo))
    ∧ ((do_zoom s (some level) dir).zoom_area.y_hi - (do_zoom s (some level) dir).zoom_area.y_lo
        = clamp ((s.zoom_area.y_hi - s.zoom_area.y_lo) / level) min_size.2
            (plot_area.y_hi - plot_area.y_lo))
    ∧ plot_area.x_lo ≤ (do_zoom s (some level) dir).zoom_area.x_lo
    ∧ (do_zoom s (some level) dir).zoom_area.x_hi ≤ plot_area.x_hi
    ∧ plot_area.y_lo ≤ (do_zoom s (some level) dir).zoom_area.y_lo
    ∧ (do_zoom s (some level) dir).zoom_area.y_hi ≤ plot_area.y_hi := by
  have hmsx : (0 : ℚ) < min_size.1 := by norm_num [min_size]
  have hmsy : (0 : ℚ) < min_size.2 := by norm_num [min_size]
  have hmmx : min_size.1 ≤ plot_area.x_hi - plot_area.x_lo := by
    norm_num [min_size, plot_area]
  have hmmy : min_size.2 ≤ plot_area.y_hi - plot_area.y_lo := by
    norm_num [min_size, plot_area]
  obtain ⟨ex1, ex2, ex3⟩ := zoomAxis_spec s.zoom_area.x_lo s.zoom_area.x_hi
    plot_area.x_lo plot_area.x_hi min_size.1 level dir.1 hmsx hmmx hlevel hx1 hx2 hsx
  obtain ⟨ey1, ey2, ey3⟩ := zoomAxis_spec s.zoom_area.y_lo s.zoom_area.y_hi
    plot_area.y_lo plot_area.y_hi min_size.2 level dir.2 hmsy hmmy hlevel hy1 hy2 hsy
  simp only [do_zoom]
  exact ⟨ex1, ey1, ex2, ex3, ey2, ey3⟩

/-- Witness for C3: zoom in by a factor of 4 anchored at the bottom from
the fresh full-area state. -/
theorem do_zoom_clamp_contained_witness :
    (1 : ℚ) ≤ 4
    ∧ (((do_zoom freshState (some 4) (0, -1)).zoom_area.x_hi
          - (do_zoom freshState (some 4) (0, -1)).zoom_area.x_lo
          = clamp ((freshState.zoom_area.x_hi - freshState.zoom_area.x_lo) / 4) min_size.1
              (plot_area.x_hi - plot_area.x_lo))
        ∧ ((do_zoom freshState (some 4) (0, -1)).zoom_area.y_hi
            - (do_zoom freshState (some 4) (0, -1)).zoom_area.y_lo
            = clamp ((freshState.zoom_area.y_hi - freshState.zoom_area.y_lo) / 4) min_size.2
                (plot_area.y_hi - plot_area.y_lo))
        ∧ plot_area.x_lo ≤ (do_zoom freshState (some 4) (0, -1)).zoom_area.x_lo
        ∧ (do_zoom freshState (some 4) (0, -1)).zoom_area.x_hi ≤ plot_area.x_hi
        ∧ plot_area.y_lo ≤ (do_zoom freshState (some 4) (0, -1)).zoom_area.y_lo
        ∧ (do_zoom freshState (some 4) (0, -1)).zoom_area.y_hi ≤ plot_area.y_hi) :=
  ⟨by norm_num,
   do_zoom_clamp_contained freshState 4 (0, -1) (by norm_num)
     (by norm_num) (by norm_num) (by norm_num) (by norm_num)
     (by norm_num [freshState, plot_area]) (by norm_num [freshState, plot_area])
     (by norm_num [freshState, plot_area]) (by norm_num [freshState, plot_area])
     (by norm_num [freshState, plot_area, min_size])
     (by norm_num [freshState, plot_area, min_size])⟩

/-- Claim C1, counterexample to the claim as stated: two equal-default-
priority overlapping labels at `pos = 127` and `pos = 128` with identical
label sizes.  The overlap pass keeps the earlier label and drops the later
one — not the other way around as the claim says. -/
theorem overlap_tie_cex :
    overlapPass env0 [lineA, lineB] = [lineA, { lineB with label := none }]
    ∧ overlapPass env0 [lineA, lineB] ≠ [{ lineA with label := none }, lineB] := by
  have h : overlapPass env0 [lineA, lineB] = [lineA, { lineB with label := none }] := by
    norm_num [overlapPass, overlapGo, lineA, lineB, labelPad, label_size, env0,
      show labelLines "127" = ["127"] from by decide,
      show labelLines "128" = ["128"] from by decide]
    decide
  exact ⟨h, by rw [h]; decide⟩

/-- Claim C1, amended: for two labeled gridlines on the same axis, in
sorted `pos` order, whose labels overlap and whose priorities are equal,
the overlap pass keeps the earlier line's label text and drops the later
one's (`line.priority <= last.priority` deletes the current line's
label). -/
theorem overlap_equal_priority_earlier_survives (env : ScreenEnv) (A B : GridLine)
    (a b : String)
    (hA : A.label = some a) (ha : a ≠ "") (hB : B.label = some b) (hb : b ≠ "")
    (hax : A.horizontal = B.horizontal) (_hsort : A.pos ≤ B.pos)
    (hprio : B.priority = A.priority)
    (hover : B.pos - labelPad env B b < A.pos + labelPad env A a) :
    overlapPass env [A, B] = [A, { B with label := none }] := by
  cases hh : A.horizontal <;>
  · have hBh := hax.symm.trans hh
    simp [overlapPass, overlapGo, hA, hB, ha, hb, hh, hBh, hover, hprio, List.getD]

/-- Witness for the amended C1 at the demo's 127/128 pair. -/
theorem overlap_equal_priority_earlier_survives_witness :
    lineA.pos ≤ lineB.pos
    ∧ overlapPass env0 [lineA, lineB] = [lineA, { lineB with label := none }] :=
  ⟨by norm_num [lineA, lineB],
   overlap_equal_priority_earlier_survives env0 lineA lineB "127" "128"
     rfl (by decide) rfl (by decide) rfl (by norm_num [lineA, lineB]) rfl
     (by norm_num [lineA, lineB, labelPad, label_size, env0,
        show labelLines "127" = ["127"] from by decide,
        show labelLines "128" = ["128"] from by decide])⟩

/-- Claim C6: for two labeled gridlines on the same axis, in sorted order,
whose labels overlap and which carry priorities 0 and 1, the overlap pass
keeps the priority-1 label, drops the priority-0 line's label text, and the
priority-0 line itself — when inside the zoom rectangle on its axis — is
still drawn as a plain gridline segment in its own color. -/
theorem overlap_priority_one_wins (env : ScreenEnv) (zoomq : Quad) (A B : GridLine)
    (a b : String)
    (hA : A.label = some a) (ha : a ≠ "") (hB : B.label = some b) (hb : b ≠ "")
    (hax : A.horizontal = B.horizontal) (_hsort : A.pos ≤ B.pos)
    (hover : B.pos - labelPad env B b < A.pos + labelPad env A a) :
    (A.priority = 0 → B.priority = 1 →
      overlapPass env [A, B] = [{ A with label := none }, B]
      ∧ (¬(A.pos < zoomq.lo A.horizontal ∨ A.pos > zoomq.hi A.horizontal) →
          draw_line env zoomq { A with label := none }
            = [DrawOp.seg (mainStart env A) (mainEnd A) A.color]))
    ∧ (A.priority = 1 → B.priority = 0 →
      overlapPass env [A, B] = [A, { B with label := none }]
      ∧ (¬(B.pos < zoomq.lo B.horizontal ∨ B.pos > zoomq.hi B.horizontal) →
          draw_line env zoomq { B with label := none }
            = [DrawOp.seg (mainStart env B) (mainEnd B) B.color])) := by
  constructor
  · intro hpA hpB
    constructor
    · cases hh : A.horizontal <;>
      · have hBh := hax.symm.trans hh
        simp [overlapPass, overlapGo, hA, hB, ha, hb, hh, hBh, hover, hpA, hpB,
          List.getD]
    · intro hin
      simp only [draw_line, mainStart, mainEnd]
      rw [if_neg (by simpa using hin)]
      simp
  · intro hpA hpB
    constructor
    · cases hh : A.horizontal <;>
      · have hBh := hax.symm.trans hh
        simp [overlapPass, overlapGo, hA, hB, ha, hb, hh, hBh, hover, hpA, hpB,
          List.getD]
    · intro hin
      simp only [draw_line, mainStart, mainEnd]
      rw [if_neg (by simpa using hin)]
      simp

/-- Witness for C6: the demo's `pos = 128` (default priority) and
`pos = 136` (priority 1) pair; the priority-0 line keeps its segment. -/
theorem overlap_priority_one_wins_witness :
    overlapPass env0 [lineP0, lineP1] = [{ lineP0 with label := none }, lineP1]
    ∧ draw_line env0 plot_area { lineP0 with label := none }
        = [DrawOp.seg (mainStart env0 lineP0) (mainEnd lineP0) lineP0.color] := by
  have h := (overlap_priority_one_wins env0 plot_area lineP0 lineP1 "G" "B"
    rfl (by decide) rfl (by decide) rfl (by norm_num [lineP0, lineP1])
    (by norm_num [lineP0, lineP1, labelPad, label_size, env0,
        show labelLines "G" = ["G"] from by decide,
        show labelLines "B" = ["B"] from by decide])).1 rfl rfl
  exact ⟨h.1, h.2 (by norm_num [lineP0, plot_area, Quad.lo, Quad.hi])⟩

/-- Claim C7: a labeled gridline whose `pos` lies outside the zoom
rectangle on its own axis is skipped entirely: the margin pass leaves the
accumulated margin unchanged (only stripping the label), and `draw_line`
draws neither the line nor the label, whether or not the label was already
stripped. -/
theorem outside_line_skipped (env : ScreenEnv) (zoomq : Quad) (pads : ℚ × ℚ)
    (msc : ℚ) (m : Quad) (l : GridLine) (rest : List GridLine) (lbl : String)
    (hlbl : l.label = some lbl) (hne : lbl ≠ "")
    (hout : l.pos < zoomq.lo l.horizontal ∨ l.pos > zoomq.hi l.horizontal) :
    (marginPass env zoomq pads msc m (l :: rest)).1
      = (marginPass env zoomq pads msc m rest).1
    ∧ (marginPass env zoomq pads msc m (l :: rest)).2
        = { l with label := none } :: (marginPass env zoomq pads msc m rest).2
    ∧ draw_line env zoomq l = []
    ∧ draw_line env zoomq { l with label := none } = [] := by
  refine ⟨?_, ?_, ?_, ?_⟩
  · simp [marginPass, hlbl, hne, hout]
  · simp [marginPass, hlbl, hne, hout]
  · simp [draw_line, hout]
  · simp only [draw_line]
    rw [if_pos (by simpa using hout)]

/-- Witness for C7: a labeled line at `pos = 2000`, outside the unzoomed
plot area. -/
theorem outside_line_skipped_witness :
    (marginPass env0 plot_area (4, 4) 1 ⟨-4, -4, 4, 4⟩ [lineOut]).1
      = (marginPass env0 plot_area (4, 4) 1 ⟨-4, -4, 4, 4⟩ []).1
    ∧ (marginPass env0 plot_area (4, 4) 1 ⟨-4, -4, 4, 4⟩ [lineOut]).2
        = { lineOut with label := none }
            :: (marginPass env0 plot_area (4, 4) 1 ⟨-4, -4, 4, 4⟩ []).2
    ∧ draw_line env0 plot_area lineOut = []
    ∧ draw_line env0 plot_area { lineOut with label := none } = [] :=
  outside_line_skipped env0 plot_area (4, 4) 1 ⟨-4, -4, 4, 4⟩ lineOut [] "X"
    rfl (by decide)
    (by norm_num [lineOut, plot_area, Quad.lo, Quad.hi])

/-- Claim C4, counterexample to the claim as stated: on a fresh instance
(unit screen scales), `do_clear([])` followed by `do_zoom()` leaves the
margin at the base padding margin `[-4, -4, 4, 4]`, not at the
fresh-instance margin `[0, 0, 0, 0]`. -/
theorem clear_zoom_margin_cex :
    (do_zoom (do_clear env0 freshState []).1 none (0, 0)).margin = ⟨-4, -4, 4, 4⟩
    ∧ ((⟨-4, -4, 4, 4⟩ : Quad) ≠ freshState.margin) := by
  constructor
  · norm_num [do_clear, draw_grid, do_zoom, sortByPos, marginPass, overlapPass,
      overlapGo, freshState, env0]
  · decide

/-- Claim C4, amended: `do_clear([])` followed by `do_zoom()` restores the
zoom area, scale, stored tables and line list of a fresh instance, but the
margin becomes the base label-padding margin
`[-4/xscale/scale, -4/yscale/scale, 4/xscale/scale, 4/yscale/scale]`
(computed with the pre-clear scale), which differs from the fresh-instance
margin `[0, 0, 0, 0]` whenever the scales are positive. -/
theorem clear_then_zoom_resets_except_margin (env : ScreenEnv) (s : PlotState) :
    (do_zoom (do_clear env s []).1 none (0, 0)).zoom_area = plot_area
    ∧ (do_zoom (do_clear env s []).1 none (0, 0)).scale = 1
    ∧ (do_zoom (do_clear env s []).1 none (0, 0)).tables = []
    ∧ (do_zoom (do_clear env s []).1 none (0, 0)).lines = []
    ∧ (do_zoom (do_clear env s []).1 none (0, 0)).closed = s.closed
    ∧ (do_zoom (do_clear env s []).1 none (0, 0)).margin
        = ⟨-(4 / env.xscale * (1 / s.scale)), -(4 / env.yscale * (1 / s.scale)),
           4 / env.xscale * (1 / s.scale), 4 / env.yscale * (1 / s.scale)⟩
    ∧ (0 < env.xscale → 0 < s.scale →
        (do_zoom (do_clear env s []).1 none (0, 0)).margin ≠ freshState.margin) := by
  have hm : (do_zoom (do_clear env s []).1 none (0, 0)).margin
      = ⟨-(4 / env.xscale * (1 / s.scale)), -(4 / env.yscale * (1 / s.scale)),
         4 / env.xscale * (1 / s.scale), 4 / env.yscale * (1 / s.scale)⟩ := by
    simp [do_clear, draw_grid, do_zoom, sortByPos, marginPass, overlapPass, overlapGo]
  refine ⟨rfl, rfl, rfl, rfl, rfl, hm, ?_⟩
  intro hx hs hcontra
  rw [hm] at hcontra
  have h4 : (0 : ℚ) < 4 / env.xscale * (1 / s.scale) := by positivity
  simp only [freshState, Quad.mk.injEq, neg_eq_zero] at hcontra
  exact absurd hcontra.1 (ne_of_gt h4)

/-- Witness for the amended C4 at a fresh instance with unit scales. -/
theorem clear_then_zoom_resets_witness :
    (0 : ℚ) < env0.xscale
    ∧ (do_zoom (do_clear env0 freshState []).1 none (0, 0)).margin ≠ freshState.margin :=
  ⟨by norm_num [env0],
   (clear_then_zoom_resets_except_margin env0 freshState).2.2.2.2.2.2
     (by norm_num [env0]) (by norm_num [freshState])⟩

/-- The grouped-argument unpack does nothing unless exactly one argument
was passed. -/
theorem unpackStep_ne_one (gamma : List Arg) (hn : gamma.length ≠ 1) :
    unpackStep gamma = .ok gamma := by
  match gamma with
  | [] => rfl
  | [x] => simp at hn
  | x :: y :: rest => cases x <;> rfl

/-- Drawing a list of curves that are all equal to `x` succeeds with one
polyline per curve, every polyline being the points of `x`. -/
theorem drawCurves_const (sx : ℚ) (co : Nat → String) (x : Arg)
    (pts : List (ℚ × ℚ)) (hx : curvePoints sx x = .ok pts) :
    ∀ (l : List Arg) (i : Nat), (∀ v ∈ l, v = x) →
      ∃ d, drawCurves sx co i l = .ok d ∧ d.length = l.length ∧ ∀ e ∈ d, e.2 = pts := by
  intro l
  induction l with
  | nil => exact fun i _ => ⟨[], rfl, rfl, by simp⟩
  | cons v rest ih =>
    intro i hall
    have hv : v = x := hall v (by simp)
    obtain ⟨d, hd, hlen, hmem⟩ := ih (i + 1) (fun w hw => hall w (by simp [hw]))
    refine ⟨(co i, pts) :: d, by simp [drawCurves, hv, hx, hd], by simp [hlen], ?_⟩
    intro e he
    simp only [List.mem_cons] at he
    rcases he with rfl | he
    · rfl
    · exact hmem e he

/-- Claim C5, counterexample to the claim as stated: three identical
curves with the default three-color list.  The identical-curves collapse
draws one black polyline, while drawing every curve leaves the same
geometry finally painted blue — the visual output differs. -/
theorem plot_table_collapse_cex :
    plot_table gamma3 colorsRGB 1 = .ok [("black", ptsC)]
    ∧ plotTableNoCollapse gamma3 colorsRGB 1
        = .ok [("red", ptsC), ("green", ptsC), ("blue", ptsC)]
    ∧ lastColorOf [("black", ptsC)] ptsC = some "black"
    ∧ lastColorOf [("red", ptsC), ("green", ptsC), ("blue", ptsC)] ptsC = some "blue"
    ∧ (some "black" : Option String) ≠ some "blue" := by
  refine ⟨?_, ?_, by decide, by decide, by decide⟩
  · have hu : plot_table gamma3 colorsRGB 1
        = drawCurves 1 (colorOf (collapseStep gamma3).length colorsRGB) 0
            (collapseStep gamma3) := rfl
    rw [hu, show collapseStep gamma3 = [Arg.curve curveC] from by decide]
    norm_num [drawCurves, curvePoints, samplePoints, colorOf, curveC, ptsC, colorsRGB]
  · norm_num [plotTableNoCollapse, drawCurves, curvePoints, samplePoints, colorOf,
      gamma3, curveC, ptsC, colorsRGB]

/-- Claim C5, amended: when the grouped-argument unpack does not fire
(more or fewer than one argument), the identical-curves collapse preserves
the set of polyline geometries drawn, but not necessarily the final
colors (the counterexample shows black versus blue). -/
theorem plot_table_collapse_geometry (gamma : List Arg) (colors : List String)
    (sx : ℚ) (d1 d2 : List (String × List (ℚ × ℚ)))
    (hn : gamma.length ≠ 1)
    (h1 : plot_table gamma colors sx = .ok d1)
    (h2 : plotTableNoCollapse gamma colors sx = .ok d2) :
    ∀ p, (∃ c, (c, p) ∈ d1) ↔ (∃ c, (c, p) ∈ d2) := by
  simp only [plot_table, unpackStep_ne_one gamma hn] at h1
  rw [plotTableNoCollapse] at h2
  cases gamma with
  | nil =>
    simp only [collapseStep, drawCurves, Except.ok.injEq] at h1 h2
    subst h1
    subst h2
    simp
  | cons x rest =>
    cases hall : (x :: rest).all (· = x) with
    | false =>
      simp only [collapseStep, hall, Bool.false_eq_true, if_false] at h1
      rw [h1] at h2
      injection h2 with h
      subst h
      intro p
      rfl
    | true =>
      simp only [collapseStep, hall, if_true] at h1
      have hmem : ∀ v ∈ x :: rest, v = x := by
        intro v hv
        exact of_decide_eq_true (List.all_eq_true.mp hall v hv)
      cases hcp : curvePoints sx x with
      | error e => simp [drawCurves, hcp] at h1
      | ok pts =>
        simp only [drawCurves, hcp, Except.ok.injEq] at h1
        obtain ⟨d, hd, hlen, hmemd⟩ :=
          drawCurves_const sx (colorOf (x :: rest).length colors) x pts hcp
            (x :: rest) 0 hmem
        rw [hd] at h2
        injection h2 with h
        subst h
        subst h1
        intro p
        constructor
        · rintro ⟨c, hc⟩
          simp only [List.mem_singleton, Prod.mk.injEq] at hc
          cases d with
          | nil => simp at hlen
          | cons e d' =>
            refine ⟨e.1, ?_⟩
            have he2 : e.2 = pts := hmemd e (by simp)
            have hpe : p = e.2 := by rw [hc.2, he2]
            rw [hpe]
            simp
        · rintro ⟨c, hc⟩
          have hp : p = pts := by
            have := hmemd (c, p) hc
            simpa using this
          exact ⟨colorOf 1 colors 0, by simp [hp]⟩

/-- Witness for the amended C5: the three identical curves of the
counterexample share their single polyline geometry with the uncollapsed
draw. -/
theorem plot_table_collapse_geometry_witness :
    gamma3.length ≠ 1
    ∧ (∀ p, (∃ c, (c, p) ∈ [("black", ptsC)])
        ↔ (∃ c, (c, p) ∈ [("red", ptsC), ("green", ptsC), ("blue", ptsC)])) :=
  ⟨by decide,
   plot_table_collapse_geometry gamma3 colorsRGB 1 _ _ (by decide)
     (by
        have hu : plot_table gamma3 colorsRGB 1
            = drawCurves 1 (colorOf (collapseStep gamma3).length colorsRGB) 0
                (collapseStep gamma3) := rfl
        rw [hu, show collapseStep gamma3 = [Arg.curve curveC] from by decide]
        norm_num [drawCurves, curvePoints, samplePoints, colorOf, curveC, ptsC,
          colorsRGB])
     (by norm_num [plotTableNoCollapse, drawCurves, curvePoints, samplePoints,
        colorOf, gamma3, curveC, ptsC, colorsRGB])⟩

end Plot
